import Mathlib

/-!
Shallow embedding of `subliminal/subtitle.py` (the `Subtitle` entity, its
encoding-guessing pipeline and path derivation) in Lean 4.

Python byte strings are modelled as `List Nat` (one entry per byte),
Python `str` as Lean `String`.  The external collaborators (the `codecs`
module, `chardet`, the `srt` parser/composer and `pysubs2`) are not part of
this repository; they are modelled as an oracle bundle `Ext` whose fields
return `Option`/sum results exactly where the Python call can raise the
exception the source catches.  Every function of the repository itself is
translated line by line from `src/subliminal/subtitle.py`.
-/

namespace Subliminal

/-- Result of `pysubs2.SSAFile.from_string`: either an object whose
`format` attribute is a string, the distinguished `UnknownFPSError`,
or any other exception. -/
inductive SSAResult where
  | ok (format : String)
  | unknownFPS
  | err
  deriving DecidableEq, Repr

/-- Oracle bundle for the external libraries used by `subtitle.py`.
Each field mirrors the documented interface of the collaborator:

* `decodeStrict e bs`  — `bs.decode(e)` with strict errors;
  `none` models a raised `UnicodeDecodeError`.
* `decodeReplace e bs` — `bs.decode(e, errors="replace")`; total, never raises.
* `encode e t`         — `t.encode(encoding=e)`;
  `none` models a raised `UnicodeEncodeError`.
* `canonical e`        — `codecs.lookup(e).name`;
  `none` models a raised `LookupError`.
* `printableChar c`    — Unicode printability of one character, the
  per-character predicate underlying `str.isprintable`.
* `chardet bs`         — `chardet.detect(bs)["encoding"]`, possibly `None`.
* `srtCompose t`       — `srt.compose(srt.parse(t))`;
  `none` models any exception raised by parsing.
* `ssa t fmt fps`      — `pysubs2.SSAFile.from_string(t, format_=fmt, fps=fps)`.
-/
structure Ext where
  decodeStrict : String → List Nat → Option String
  decodeReplace : String → List Nat → String
  encode : String → String → Option (List Nat)
  canonical : String → Option String
  printableChar : Char → Bool
  chardet : List Nat → Option String
  srtCompose : String → Option String
  ssa : String → Option String → Option Float → SSAResult

/-- Python `text.replace(c, "")` for a single-character pattern: remove
every occurrence of that character. -/
def removeChar (c : Char) (s : String) : String :=
  String.mk (s.toList.filter (fun x => x ≠ c))

/-- Python `str.isprintable`: every character is printable
(the empty string is printable). -/
def pyIsPrintable (ext : Ext) (s : String) : Bool :=
  s.toList.all ext.printableChar

/-- Source `FORMAT_TO_EXTENSION`: subtitle formats to extension. -/
def FORMAT_TO_EXTENSION : List (String × String) :=
  [("srt", ".srt"), ("ass", ".ass"), ("ssa", ".ssa"), ("microdvd", ".sub"),
   ("mpl2", ".mpl"), ("tmp", ".txt"), ("vtt", ".vtt")]

/-- Source `FORMAT_TO_EXTENSION.get(subtitle_format, '.srt')` where
`subtitle_format` may be `None` (never a key of the dict). -/
def formatToExtension (subtitle_format : Option String) : String :=
  match subtitle_format with
  | none => ".srt"
  | some f => (FORMAT_TO_EXTENSION.lookup f).getD ".srt"

/-- Source `BOMS`: BOMs for UTF contents, first UTF32 BOMS as
`BOM_UTF32_LE` startswith `BOM_UTF16_LE`.  The byte values are the
constants from the `codecs` module (`BOM_UTF8 = b"\xef\xbb\xbf"`,
`BOM_UTF32_BE = b"\x00\x00\xfe\xff"`, `BOM_UTF32_LE = b"\xff\xfe\x00\x00"`,
`BOM_UTF16_BE = b"\xfe\xff"`, `BOM_UTF16_LE = b"\xff\xfe"`). -/
def BOMS : List (List Nat × String) :=
  [([0xEF, 0xBB, 0xBF], "utf-8-sig"),
   ([0x00, 0x00, 0xFE, 0xFF], "utf-32-be"),
   ([0xFF, 0xFE, 0x00, 0x00], "utf-32-le"),
   ([0xFE, 0xFF], "utf-16-be"),
   ([0xFF, 0xFE], "utf-16-le")]

/-- Source `find_encoding_with_bom(data)`:
`[encoding for bom, encoding in BOMS if data.startswith(bom)][:1]`. -/
def find_encoding_with_bom (data : List Nat) : List String :=
  ((BOMS.filter (fun p => p.1.isPrefixOf data)).map (fun p => p.2)).take 1

/-- Source `fix_line_ending(content)`: `content.replace(b"\r\n", b"\n")`,
on the byte-list model. -/
def fix_line_ending : List Nat → List Nat
  | [] => []
  | [b] => [b]
  | b1 :: b2 :: rest =>
    if b1 = 0x0D ∧ b2 = 0x0A then 0x0A :: fix_line_ending rest
    else b1 :: fix_line_ending (b2 :: rest)

/-- Source `LanguageType` enum. -/
inductive LanguageType where
  | UNKNOWN
  | FORCED
  | NORMAL
  | HEARING_IMPAIRED
  deriving DecidableEq, Repr

/-- Source `LanguageType.from_flags`.  The Python keyword arguments
`hearing_impaired` and `forced` are optional booleans; `if hearing_impaired:`
is true exactly for `True` (`some true`), and `hearing_impaired is False`
holds exactly for `some false`. -/
def LanguageType.from_flags (hearing_impaired forced : Option Bool) : LanguageType :=
  if hearing_impaired = some true then .HEARING_IMPAIRED
  else if forced = some true then .FORCED
  else if hearing_impaired = some false ∨ forced = some false then .NORMAL
  else .UNKNOWN

/-- Source `LanguageType.is_hearing_impaired`. -/
def LanguageType.is_hearing_impaired : LanguageType → Option Bool
  | .HEARING_IMPAIRED => some true
  | .UNKNOWN => none
  | _ => some false

/-- Source `LanguageType.is_forced`. -/
def LanguageType.is_forced : LanguageType → Option Bool
  | .FORCED => some true
  | .UNKNOWN => none
  | _ => some false

/-- The `babelfish.Language` collaborator, per its documented interface:
3-letter code `alpha3`, the renderers used by `get_subtitle_suffix`
(`alpha2`, `alpha3b`, `alpha3t`, `name`), optional `country` and `script`
sub-objects (modelled by their code strings), and the default string form
`str(language)`. -/
structure Language where
  alpha3 : String
  alpha2 : String
  alpha3b : String
  alpha3t : String
  name : String
  country : Option String
  script : Option String
  strForm : String
  deriving DecidableEq, Repr

/-- Truthiness of a `babelfish.Language`: `bool(language)` is
`language.alpha3 != "und"` (an undefined language is falsy). -/
def Language.toBool (l : Language) : Bool :=
  l.alpha3 ≠ "und"

/-- Source `getattr(language, language_format)` for the renderer attributes;
`none` models a raised `AttributeError`. -/
def Language.renderAs (l : Language) (fmt : String) : Option String :=
  if fmt = "alpha2" then some l.alpha2
  else if fmt = "alpha3" then some l.alpha3
  else if fmt = "alpha3b" then some l.alpha3b
  else if fmt = "alpha3t" then some l.alpha3t
  else if fmt = "name" then some l.name
  else none

/-- Source `find_potential_encodings(language)`: the static per-language
candidate-encoding table, reproduced verbatim from the source. -/
def find_potential_encodings (language : Language) : List String :=
  if language.alpha3 = "zho" then
    ["cp936", "gb2312", "gbk", "hz", "iso2022_jp_2", "cp950", "big5hkscs",
     "big5", "gb18030", "utf-16"]
  else if language.alpha3 = "jpn" then
    ["shift-jis", "cp932", "euc_jp", "iso2022_jp", "iso2022_jp_1",
     "iso2022_jp_2", "iso2022_jp_2004", "iso2022_jp_3", "iso2022_jp_ext"]
  else if language.alpha3 = "tha" then
    ["tis-620", "cp874"]
  else if ["ara", "fas", "per"].contains language.alpha3 then
    ["windows-1256", "utf-16", "utf-16le", "ascii", "iso-8859-6"]
  else if language.alpha3 = "heb" then
    ["windows-1255", "iso-8859-8"]
  else if language.alpha3 = "tur" then
    ["windows-1254", "iso-8859-9", "iso-8859-3"]
  else if ["grc", "gre", "ell"].contains language.alpha3 then
    ["windows-1253", "cp1253", "cp737", "iso8859-7", "cp875", "cp869",
     "iso2022_jp_2", "mac_greek"]
  else if ["pol", "cze", "ces", "slk", "slo", "slv", "hun", "bos", "hbs",
           "hrv", "rsb", "ron", "rum", "sqi", "alb"].contains language.alpha3 then
    let encodings := ["windows-1250", "iso-8859-2"]
    if language.alpha3 = "slv" then
      encodings ++ ["iso-8859-4"]
    else if ["sqi", "alb"].contains language.alpha3 then
      encodings ++ ["windows-1252", "iso-8859-15", "iso-8859-1", "iso-8859-9"]
    else encodings
  else if ["bul", "mkd", "mac", "rus", "ukr"].contains language.alpha3 then
    ["windows-1251", "iso-8859-5"]
  else if language.alpha3 = "srp" then
    if language.script = some "Latn" then ["windows-1250", "iso-8859-2"]
    else if language.script = some "Cyrl" then ["windows-1251", "iso-8859-5"]
    else ["windows-1250", "windows-1251", "iso-8859-2", "iso-8859-5"]
  else
    -- Western European (windows-1252) / Northern European
    ["windows-1252", "iso-8859-15", "iso-8859-9", "iso-8859-4", "iso-8859-1"]

/-- The mutable state of a `Subtitle` instance.  `provider_name` is a
class variable in Python; it is carried per instance here so the model
covers every subclass.  Field names follow the source. -/
structure Subtitle where
  provider_name : String
  _content : Option (List Nat)
  _text : String
  _is_decoded : Bool
  _is_valid : Option Bool
  _guess_encoding : Bool
  language : Language
  subtitle_id : String
  language_type : LanguageType
  page_link : Option String
  encoding : Option String
  subtitle_format : Option String
  fps : Option Float
  embedded : Bool

/-- Source `Subtitle.__init__`.  The `encoding` argument is validated: with a
truthy (non-empty) argument, `codecs.lookup` either yields the canonical
name or raises `LookupError`, in which case the attribute stays `None`. -/
def Subtitle.construct (ext : Ext) (provider_name : String) (language : Language)
    (subtitle_id : String) (hearing_impaired : Option Bool)
    (forced : Option Bool) (page_link : Option String)
    (encoding : Option String) (subtitle_format : Option String)
    (fps : Option Float) (embedded : Bool)
    (guess_encoding : Bool) : Subtitle :=
  { provider_name := provider_name
    _content := none
    _text := ""
    _is_decoded := false
    _is_valid := none
    _guess_encoding := guess_encoding
    language := language
    subtitle_id := subtitle_id
    language_type := LanguageType.from_flags hearing_impaired forced
    page_link := page_link
    encoding := match encoding with
      | none => none
      | some e => if e = "" then none else ext.canonical e
    subtitle_format := subtitle_format
    fps := fps
    embedded := embedded }

/-- Source `Subtitle.id`: `str(self.subtitle_id)`. -/
def Subtitle.id (s : Subtitle) : String :=
  s.subtitle_id

/-- The string hashed by `Subtitle.__hash__`:
`self.provider_name + "-" + self.id`. -/
def Subtitle.hashKey (s : Subtitle) : String :=
  s.provider_name ++ "-" ++ s.id

/-- A Python object: a `Subtitle` state together with its identity
(`id(obj)`).  The class defines `__hash__` but no `__eq__`, so `==` falls
back to `object.__eq__`, which compares identity. -/
structure PyObject where
  addr : Nat
  val : Subtitle

/-- Python `==` on `Subtitle` instances: default identity comparison,
since the class overrides `__hash__` only. -/
def pyEq (a b : PyObject) : Bool :=
  a.addr = b.addr

/-- Source `Subtitle.clear_content`. -/
def Subtitle.clear_content (s : Subtitle) : Subtitle :=
  { s with _text := "", _is_decoded := false, _is_valid := none }

/-- Source `Subtitle._decode_content`: sets the decoded flag, then returns `""`
when the content is absent/empty or the encoding is falsy, and otherwise
the replacement-policy decode of the content. -/
def Subtitle._decode_content (ext : Ext) (s : Subtitle) : Subtitle × String :=
  let s := { s with _is_decoded := true }
  match s._content with
  | none => (s, "")
  | some content =>
    if content = [] then (s, "")
    else
      match s.encoding with
      | none => (s, "")
      | some e => if e = "" then (s, "") else (s, ext.decodeReplace e content)

/-- The `Subtitle.text` property: decode on first access, then cache. -/
def Subtitle.text_get (ext : Ext) (s : Subtitle) : Subtitle × String :=
  if s._is_decoded then (s, s._text)
  else
    let r := s._decode_content ext
    ({ r.1 with _text := r.2 }, r.2)

/-- The inner loop of `Subtitle.guess_encoding`: for each candidate, try a
strict decode; on `UnicodeDecodeError` continue; otherwise strip
`"\r"`, `"\n"` and `"\t"` and continue unless the remainder is printable,
in which case return the candidate. -/
def tryEncodings (ext : Ext) (content : List Nat) : List String → Option String
  | [] => none
  | encoding :: rest =>
    match ext.decodeStrict encoding content with
    | none => tryEncodings ext content rest
    | some decoded =>
      let decoded := removeChar '\t' (removeChar '\n' (removeChar '\r' decoded))
      if ¬ pyIsPrintable ext decoded then tryEncodings ext content rest
      else some encoding

/-- Source `Subtitle.guess_encoding`: candidates are `["utf-8"]`, then the
BOM-matched encodings, then the language-specific encodings; the first
candidate accepted by the decode-and-printability probe wins, with
`chardet.detect(content)["encoding"]` as the fallback. -/
def Subtitle.guess_encoding (ext : Ext) (s : Subtitle) : Option String :=
  match s._content with
  | none => none
  | some content =>
    let encodings := ["utf-8"] ++ find_encoding_with_bom content
      ++ find_potential_encodings s.language
    match tryEncodings ext content encodings with
    | some encoding => some encoding
    | none => ext.chardet content

/-- The `Subtitle.content` setter: clear derived state, store the bytes,
and guess the encoding when none is set and auto-guessing is enabled. -/
def Subtitle.set_content (ext : Ext) (s : Subtitle) (value : Option (List Nat)) :
    Subtitle :=
  let s := s.clear_content
  let s := { s with _content := value }
  if s._guess_encoding ∧ s.encoding = none then
    { s with encoding := s.guess_encoding ext }
  else s

/-- Source `Subtitle.reencode`: force the text decode, fail (no state beyond the
decode) on empty text or `UnicodeEncodeError`, otherwise store the new
encoding and raw content. -/
def Subtitle.reencode (ext : Ext) (s : Subtitle) (encoding : String) :
    Subtitle × Bool :=
  let r := s.text_get ext
  if r.2 = "" then (r.1, false)
  else
    match ext.encode encoding r.2 with
    | none => (r.1, false)
    | some new_content =>
      ({ r.1 with encoding := some encoding, _content := some new_content }, true)

/-- Source `get_subtitle_format`: detect the format with `pysubs2`, retrying once
with a default fps of 24 on `UnknownFPSError`.  The nested
`UnknownFPSError` case cannot occur per the collaborator's contract
(the error is only raised when no fps is supplied), so it is mapped to
`none` like any other failure. -/
def get_subtitle_format (ext : Ext) (text : String)
    (subtitle_format : Option String) (fps : Option Float) :
    Option String :=
  match ext.ssa text subtitle_format fps with
  | .ok format => some format
  | .err => none
  | .unknownFPS =>
    match ext.ssa text subtitle_format (some 24) with
    | .ok format => some format
    | _ => none

/-- Source `Subtitle.parse_srt`: `str(srt.compose(srt.parse(self.text)))`;
`none` models a raised parse exception. -/
def Subtitle.parse_srt (ext : Ext) (s : Subtitle) : Subtitle × Option String :=
  let r := s.text_get ext
  (r.1, ext.srtCompose r.2)

/-- Source `Subtitle._check_is_valid`: empty text is invalid; an undetermined
format is guessed (a falsy guess is invalid, otherwise it is cached); the
`srt` format is validated by a parse-then-compose round trip, replacing
the cached text when `auto_fix_srt` is set; other formats are valid. -/
def Subtitle._check_is_valid (ext : Ext) (s : Subtitle)
    (auto_fix_srt : Bool) : Subtitle × Bool :=
  let r := s.text_get ext
  if r.2 = "" then (r.1, false)
  else
    let fmtStep : Option Subtitle :=
      match r.1.subtitle_format with
      | none =>
        match get_subtitle_format ext r.2 none r.1.fps with
        | none => none
        | some guessed_format =>
          if guessed_format = "" then none
          else some { r.1 with subtitle_format := some guessed_format }
      | some _ => some r.1
    match fmtStep with
    | none => (r.1, false)
    | some s1 =>
      if s1.subtitle_format = some "srt" then
        let pr := s1.parse_srt ext
        match pr.2 with
        | none => (pr.1, false)
        | some parsed =>
          (if auto_fix_srt then { pr.1 with _text := parsed } else pr.1, true)
      else (s1, true)

/-- Source `Subtitle.is_valid`: compute `_check_is_valid` on the first call and
cache the boolean; later calls return the cached value. -/
def Subtitle.is_valid (ext : Ext) (s : Subtitle) (auto_fix_srt : Bool) :
    Subtitle × Bool :=
  match s._is_valid with
  | none =>
    let r := s._check_is_valid ext auto_fix_srt
    ({ r.1 with _is_valid := some r.2 }, r.2)
  | some b => (s, b)

/-- Source `get_subtitle_suffix`: language part (rendered language, with country
and script appended for the code/name schemes) preceded by the language
type part (`.hi` / `.forced` when requested). -/
def get_subtitle_suffix (language : Language) (language_format : String)
    (language_type : LanguageType)
    (language_type_suffix : Bool) : String :=
  let only_language_formats := ["alpha2", "alpha3", "alpha3b", "alpha3t", "name"]
  let language_part :=
    if language.toBool then
      let language_str := (language.renderAs language_format).getD language.strForm
      let part := "." ++ language_str
      if only_language_formats.contains language_format then
        let part := match language.country with
          | some country => part ++ "-" ++ country
          | none => part
        match language.script with
        | some script => part ++ "-" ++ script
        | none => part
      else part
    else ""
  let language_type_part :=
    if language_type_suffix then
      if language_type = LanguageType.HEARING_IMPAIRED then ".hi"
      else if language_type = LanguageType.FORCED then ".forced"
      else ""
    else ""
  language_type_part ++ language_part

/-- Index of the last occurrence of `c` in `l`, as `rfind`: `-1` if absent. -/
def rfindChar (c : Char) (l : List Char) : Int :=
  match l.reverse.findIdx? (fun x => x = c) with
  | none => -1
  | some j => (l.length : Int) - 1 - (j : Int)

/-- Source `os.path.splitext(p)[0]` for POSIX paths: drop the extension starting
at the last dot, unless every character between the last separator and
that dot is itself a dot (leading dots name hidden files, not extensions). -/
def splitextRoot (p : String) : String :=
  let l := p.toList
  let sepIndex := rfindChar '/' l
  let dotIndex := rfindChar '.' l
  if sepIndex < dotIndex then
    let filenameIndex := (sepIndex + 1).toNat
    if ((l.drop filenameIndex).take (dotIndex.toNat - filenameIndex)).any
        (fun c => c ≠ '.') then
      String.mk (l.take dotIndex.toNat)
    else p
  else p

/-- Source `get_subtitle_path(video_path, suffix, extension)`:
video path with its extension stripped, then suffix, then extension. -/
def get_subtitle_path (video_path : String) (suffix : String)
    (extension : String) : String :=
  splitextRoot video_path ++ suffix ++ extension

/-- Source `Subtitle.get_path`: extension defaults from the format table; the
suffix is empty for `single`, otherwise derived from language and type.
The `Video` collaborator only contributes its `name`, passed directly. -/
def Subtitle.get_path (s : Subtitle) (video_name : String) (single : Bool)
    (extension : Option String) (language_type_suffix : Bool)
    (language_format : String) : String :=
  let extension := match extension with
    | none => formatToExtension s.subtitle_format
    | some e => e
  let suffix :=
    if single then ""
    else get_subtitle_suffix s.language language_format s.language_type
      language_type_suffix
  get_subtitle_path video_name suffix extension

/-! ### Concrete example data used by witnesses -/

/-- A concrete English `Language` (babelfish `Language("eng")`). -/
def english : Language :=
  { alpha3 := "eng", alpha2 := "en", alpha3b := "eng", alpha3t := "eng",
    name := "English", country := none, script := none, strForm := "en" }

/-- A concrete subtitle whose format is `srt` and whose language is English. -/
def movieSub : Subtitle :=
  { provider_name := "", _content := none, _text := "", _is_decoded := false,
    _is_valid := none, _guess_encoding := true, language := english,
    subtitle_id := "", language_type := .UNKNOWN, page_link := none,
    encoding := none, subtitle_format := some "srt", fps := none,
    embedded := false }

/-- The same subtitle, flagged hearing impaired. -/
def movieSubHI : Subtitle :=
  { movieSub with language_type := .HEARING_IMPAIRED }

/-- A small concrete oracle bundle used by witnesses: `utf-8` is the only
decodable/encodable/known codec, bytes `[0x68, 0x69]` decode to `"hi"`,
every character is printable except NUL, `chardet` always answers
`windows-1252`, and parsing appends a newline. -/
def extEx : Ext :=
  { decodeStrict := fun e bs =>
      if e = "utf-8" then (if bs = [0x68, 0x69] then some "hi" else none)
      else none
    decodeReplace := fun e bs =>
      if e = "utf-8" ∧ bs = [0x68, 0x69] then "hi" else "?"
    encode := fun e t =>
      if e = "utf-8" then some (t.toList.map Char.toNat) else none
    canonical := fun e =>
      if e = "utf-8" ∨ e = "UTF-8" then some "utf-8" else none
    printableChar := fun c => c != Char.ofNat 0
    chardet := fun _ => some "windows-1252"
    srtCompose := fun t => if t = "" then none else some (t ++ "\n")
    ssa := fun _ _ _ => .ok "srt" }

/-- The state `movieSub` with raw content `b"hi"`. -/
def subEx : Subtitle :=
  { movieSub with _content := some [0x68, 0x69] }

/-! ### Theorems for the claims -/

/-- The probe applied to each candidate encoding in `guess_encoding`:
the candidate is accepted when the strict decode succeeds and the decoded
text, with carriage returns, newlines and tabs removed, is printable. -/
def acceptsEncoding (ext : Ext) (content : List Nat) (encoding : String) : Bool :=
  match ext.decodeStrict encoding content with
  | none => false
  | some decoded =>
    pyIsPrintable ext (removeChar '\t' (removeChar '\n' (removeChar '\r' decoded)))

/-- The candidate loop returns the first accepted candidate. -/
theorem tryEncodings_eq_find (ext : Ext) (content : List Nat) :
    ∀ l : List String,
      tryEncodings ext content l = l.find? (acceptsEncoding ext content)
  | [] => rfl
  | e :: rest => by
    rw [tryEncodings, List.find?_cons]
    cases hd : ext.decodeStrict e content with
    | none =>
      have : acceptsEncoding ext content e = false := by
        simp [acceptsEncoding, hd]
      simp [hd, this, tryEncodings_eq_find ext content rest]
    | some decoded =>
      cases hp : pyIsPrintable ext
          (removeChar '\t' (removeChar '\n' (removeChar '\r' decoded))) with
      | false =>
        have : acceptsEncoding ext content e = false := by
          simp [acceptsEncoding, hd, hp]
        simp [hd, hp, this, tryEncodings_eq_find ext content rest]
      | true =>
        have : acceptsEncoding ext content e = true := by
          simp [acceptsEncoding, hd, hp]
        simp [hd, hp, this]

/-- A filtered list truncated to one element is the first match. -/
theorem filter_map_take_one {α β : Type} (p : α → Bool) (f : α → β) :
    ∀ l : List α, ((l.filter p).map f).take 1 = ((l.find? p).map f).toList
  | [] => rfl
  | a :: l => by
    cases h : p a with
    | true => simp [List.filter_cons, List.find?_cons, h]
    | false => simpa [List.filter_cons, List.find?_cons, h] using
        filter_map_take_one p f l

/-- The helper `_decode_content` only sets the decoded flag. -/
theorem decode_content_fst (ext : Ext) (s : Subtitle) :
    (s._decode_content ext).1 = { s with _is_decoded := true } := by
  rw [Subtitle._decode_content]
  rcases s with ⟨p, c, t, d, v, g, lang, sid, lt, pl, enc, sf, fps, emb⟩
  cases c with
  | none => rfl
  | some content =>
    by_cases hc : content = []
    · simp [hc]
    · cases enc with
      | none => simp [hc]
      | some e => by_cases he : e = "" <;> simp [hc, he]

/-- The `text` getter returns the input state with the decoded flag set
and the returned text cached. -/
theorem text_get_fst (ext : Ext) (s : Subtitle) :
    (s.text_get ext).1 =
      { s with _is_decoded := true, _text := (s.text_get ext).2 } := by
  by_cases h : s._is_decoded
  · rcases s with ⟨p, c, t, d, v, g, lang, sid, lt, pl, enc, sf, fps, emb⟩
    simp only at h
    simp [Subtitle.text_get, h]
  · simp [Subtitle.text_get, h, decode_content_fst]

/-- The decoded flag is set after a `text` read. -/
theorem text_get_decoded (ext : Ext) (s : Subtitle) :
    ((s.text_get ext).1)._is_decoded = true := by
  rw [text_get_fst]

/-- The cached text equals the returned text after a `text` read. -/
theorem text_get_text (ext : Ext) (s : Subtitle) :
    ((s.text_get ext).1)._text = (s.text_get ext).2 := by
  rw [text_get_fst]

/-- A `text` read does not change the encoding. -/
theorem text_get_encoding (ext : Ext) (s : Subtitle) :
    ((s.text_get ext).1).encoding = s.encoding := by
  rw [text_get_fst]

/-- A `text` read does not change the raw content. -/
theorem text_get_content (ext : Ext) (s : Subtitle) :
    ((s.text_get ext).1)._content = s._content := by
  rw [text_get_fst]

/-- A `text` read does not change the subtitle format. -/
theorem text_get_format (ext : Ext) (s : Subtitle) :
    ((s.text_get ext).1).subtitle_format = s.subtitle_format := by
  rw [text_get_fst]

/-- A `text` read does not change the fps. -/
theorem text_get_fps (ext : Ext) (s : Subtitle) :
    ((s.text_get ext).1).fps = s.fps := by
  rw [text_get_fst]

/-- A second `text` read returns the same state and the same text. -/
theorem text_get_idem (ext : Ext) (s : Subtitle) :
    (s.text_get ext).1.text_get ext = ((s.text_get ext).1, (s.text_get ext).2) := by
  conv_lhs => rw [Subtitle.text_get]
  rw [text_get_decoded]
  simp [text_get_text]

/-- Applying `parse_srt` right after a text read composes the text just read. -/
theorem parse_srt_after_text_get (ext : Ext) (s : Subtitle) :
    ((s.text_get ext).1).parse_srt ext =
      ((s.text_get ext).1, ext.srtCompose ((s.text_get ext).2)) := by
  rw [Subtitle.parse_srt, text_get_idem]

/-- C1: `guess_encoding` builds its candidate list as `["utf-8"]`, then the
BOM-matched encodings, then the language-specific encodings, and returns
the first candidate that decodes and whose decoded text, after removing
carriage-return, newline and tab characters, is entirely printable
(a decodable but unprintable candidate is skipped); if no candidate
passes, the result is chardet's best guess, which may be `none`. -/
theorem C1_guess_encoding (ext : Ext) (s : Subtitle) (content : List Nat)
    (h : s._content = some content) :
    s.guess_encoding ext =
      match (["utf-8"] ++ find_encoding_with_bom content
          ++ find_potential_encodings s.language).find?
          (acceptsEncoding ext content) with
      | some encoding => some encoding
      | none => ext.chardet content := by
  rw [Subtitle.guess_encoding, h]
  simp only [tryEncodings_eq_find]

/-- C1 witness: on content `b"hi"` with the example oracle, the first
candidate `utf-8` decodes to printable text and is returned. -/
theorem C1_guess_encoding_witness :
    subEx.guess_encoding extEx = some "utf-8" :=
  (C1_guess_encoding extEx subEx [0x68, 0x69] rfl).trans (by decide)

/-- C5: assigning `content` clears the cached text, the decoded flag and
the validity flag, stores the new bytes, guesses the encoding exactly when
it was unset and auto-guessing was enabled (leaving a preset encoding
unchanged), and a subsequent `text` read decodes the new bytes. -/
theorem C5_set_content (ext : Ext) (s : Subtitle) (v : Option (List Nat)) :
    (s.set_content ext v)._content = v ∧
    (s.set_content ext v)._text = "" ∧
    (s.set_content ext v)._is_decoded = false ∧
    (s.set_content ext v)._is_valid = none ∧
    (s.encoding = none → s._guess_encoding = true →
      (s.set_content ext v).encoding =
        Subtitle.guess_encoding ext
          { s with _content := v, _text := "", _is_decoded := false,
                   _is_valid := none }) ∧
    (∀ e, s.encoding = some e → (s.set_content ext v).encoding = some e) ∧
    (s._guess_encoding = false → (s.set_content ext v).encoding = s.encoding) ∧
    (∀ bytes e, v = some bytes → bytes ≠ [] →
      (s.set_content ext v).encoding = some e → e ≠ "" →
      ((s.set_content ext v).text_get ext).2 = ext.decodeReplace e bytes) := by
  refine ⟨?_, ?_, ?_, ?_, ?_, ?_, ?_, ?_⟩
  · by_cases hg : s._guess_encoding = true ∧ s.encoding = none <;>
      simp [Subtitle.set_content, Subtitle.clear_content, hg]
  · by_cases hg : s._guess_encoding = true ∧ s.encoding = none <;>
      simp [Subtitle.set_content, Subtitle.clear_content, hg]
  · by_cases hg : s._guess_encoding = true ∧ s.encoding = none <;>
      simp [Subtitle.set_content, Subtitle.clear_content, hg]
  · by_cases hg : s._guess_encoding = true ∧ s.encoding = none <;>
      simp [Subtitle.set_content, Subtitle.clear_content, hg]
  · intro he hg
    simp [Subtitle.set_content, Subtitle.clear_content, he, hg]
  · intro e he
    simp [Subtitle.set_content, Subtitle.clear_content, he]
  · intro hg
    simp [Subtitle.set_content, Subtitle.clear_content, hg]
  · intro bytes e hv hb henc hne
    have hdec : (s.set_content ext v)._is_decoded = false := by
      by_cases hg : s._guess_encoding = true ∧ s.encoding = none <;>
        simp [Subtitle.set_content, Subtitle.clear_content, hg]
    have hcont : (s.set_content ext v)._content = some bytes := by
      rw [← hv]
      by_cases hg : s._guess_encoding = true ∧ s.encoding = none <;>
        simp [Subtitle.set_content, Subtitle.clear_content, hg]
    rw [Subtitle.text_get, hdec]
    simp only [Bool.false_eq_true, if_false]
    rw [Subtitle._decode_content]
    simp [hcont, hb, henc, hne]

/-- C5 witness: setting content `b"hi"` on the example subtitle guesses
`utf-8`, a following `text` read yields the decode `"hi"` of the new
bytes, and a preset encoding survives a content assignment. -/
theorem C5_set_content_witness :
    (movieSub.set_content extEx (some [0x68, 0x69]))._content = some [0x68, 0x69] ∧
    ((movieSub.set_content extEx (some [0x68, 0x69])).text_get extEx).2 = "hi" ∧
    (({ movieSub with encoding := some "latin-1" }).set_content extEx
        (some [0x68, 0x69])).encoding = some "latin-1" := by
  refine ⟨(C5_set_content extEx movieSub (some [0x68, 0x69])).1, ?_, ?_⟩
  · have h := (C5_set_content extEx movieSub
      (some [0x68, 0x69])).2.2.2.2.2.2.2 [0x68, 0x69] "utf-8" rfl
      (by decide) (by decide) (by decide)
    rw [h]; decide
  · exact (C5_set_content extEx { movieSub with encoding := some "latin-1" }
      (some [0x68, 0x69])).2.2.2.2.2.1 "latin-1" rfl

/-- C9: the constructor never fails on an encoding argument: an absent or
empty argument and an unsupported name both leave the attribute `None`; a
supported name is stored in its canonical form. -/
theorem C9_construct_encoding (ext : Ext) (p : String) (lang : Language)
    (sid : String) (hi f : Option Bool) (pl : Option String)
    (enc : Option String) (sf : Option String) (fps : Option Float)
    (emb gss : Bool) :
    ((enc = none ∨ enc = some "") →
      (Subtitle.construct ext p lang sid hi f pl enc sf fps emb gss).encoding
        = none) ∧
    (∀ e, enc = some e → e ≠ "" → ext.canonical e = none →
      (Subtitle.construct ext p lang sid hi f pl enc sf fps emb gss).encoding
        = none) ∧
    (∀ e n, enc = some e → e ≠ "" → ext.canonical e = some n →
      (Subtitle.construct ext p lang sid hi f pl enc sf fps emb gss).encoding
        = some n) := by
  refine ⟨fun h => ?_, fun e he hne hc => ?_, fun e n he hne hc => ?_⟩
  · rcases h with h | h <;> simp [Subtitle.construct, h]
  · simp [Subtitle.construct, he, hne, hc]
  · simp [Subtitle.construct, he, hne, hc]

/-- C9 witness: an unsupported name falls back to `None`, a supported name
is stored canonically (`UTF-8` becomes `utf-8`). -/
theorem C9_construct_encoding_witness :
    (Subtitle.construct extEx "" english "" none none none (some "bogus")
      none none false true).encoding = none ∧
    (Subtitle.construct extEx "" english "" none none none (some "UTF-8")
      none none false true).encoding = some "utf-8" :=
  ⟨(C9_construct_encoding extEx "" english "" none none none (some "bogus")
      none none false true).2.1 "bogus" rfl (by decide) (by decide),
   (C9_construct_encoding extEx "" english "" none none none (some "UTF-8")
      none none false true).2.2 "UTF-8" "utf-8" rfl (by decide) (by decide)⟩

/-- C6: `find_encoding_with_bom` returns at most one encoding name, namely
the encoding of the first BOM (in the fixed table order) the data starts
with; data starting with the UTF-32LE mark yields `utf-32-le` (never
`utf-16-le`), and data starting with no recognized mark yields `[]`. -/
theorem C6_find_encoding_with_bom :
    (∀ data : List Nat, (find_encoding_with_bom data).length ≤ 1 ∧
      find_encoding_with_bom data =
        ((BOMS.find? (fun p => p.1.isPrefixOf data)).map (fun p => p.2)).toList) ∧
    (∀ rest : List Nat,
      find_encoding_with_bom ([0xFF, 0xFE, 0x00, 0x00] ++ rest) = ["utf-32-le"]) ∧
    (∀ data : List Nat, (∀ p ∈ BOMS, p.1.isPrefixOf data = false) →
      find_encoding_with_bom data = []) := by
  refine ⟨fun data => ⟨?_, ?_⟩, fun rest => ?_, fun data h => ?_⟩
  · exact le_trans (List.length_take_le 1 _) le_rfl
  · exact filter_map_take_one _ _ BOMS
  · simp [find_encoding_with_bom, BOMS, List.isPrefixOf]
  · have hnil : BOMS.filter (fun p => p.1.isPrefixOf data) = [] :=
      List.filter_eq_nil_iff.mpr (fun a ha => by simp [h a ha])
    simp [find_encoding_with_bom, hnil]

/-- C6 witness: concrete evaluations, including the hypothesis-bearing
no-recognized-mark case. -/
theorem C6_find_encoding_with_bom_witness :
    find_encoding_with_bom ([0xFF, 0xFE, 0x00, 0x00] ++ [0x41]) = ["utf-32-le"] ∧
    find_encoding_with_bom [0x41, 0x42, 0x43] = [] :=
  ⟨C6_find_encoding_with_bom.2.1 [0x41],
   C6_find_encoding_with_bom.2.2 [0x41, 0x42, 0x43] (by decide)⟩

/-- C7: `LanguageType.from_flags` on every pair of optional booleans:
hearing-impaired true wins, then forced true, then any explicit false
gives NORMAL, and both unset gives UNKNOWN. -/
theorem C7_from_flags :
    LanguageType.from_flags (some true) (some true) = .HEARING_IMPAIRED ∧
    LanguageType.from_flags (some true) (some false) = .HEARING_IMPAIRED ∧
    LanguageType.from_flags (some true) none = .HEARING_IMPAIRED ∧
    LanguageType.from_flags (some false) (some true) = .FORCED ∧
    LanguageType.from_flags none (some true) = .FORCED ∧
    LanguageType.from_flags (some false) (some false) = .NORMAL ∧
    LanguageType.from_flags (some false) none = .NORMAL ∧
    LanguageType.from_flags none (some false) = .NORMAL ∧
    LanguageType.from_flags none none = .UNKNOWN := by
  decide

/-- C8: `get_path` strips the video extension, appends the suffix (empty
when `single`; otherwise type part then language part) and the extension
(defaulting to `.srt` for an unmapped format): the three specified
examples on `"movie.mkv"`. -/
theorem C8_get_path :
    (∀ f : String, FORMAT_TO_EXTENSION.lookup f = none →
      formatToExtension (some f) = ".srt") ∧
    movieSub.get_path "movie.mkv" true none false "alpha2" = "movie.srt" ∧
    movieSub.get_path "movie.mkv" false none false "alpha2" = "movie.en.srt" ∧
    movieSubHI.get_path "movie.mkv" false none true "alpha2" = "movie.hi.en.srt" := by
  refine ⟨fun f h => ?_, by decide, by decide, by decide⟩
  simp [formatToExtension, h]

/-- C8 witness: the unmapped-format default at a concrete format name. -/
theorem C8_get_path_witness :
    formatToExtension (some "smi") = ".srt" :=
  C8_get_path.1 "smi" (by decide)

/-- The state `movieSub` already decoded, with cached text `"hi"`. -/
def subDecoded : Subtitle :=
  { movieSub with _is_decoded := true, _text := "hi" }

/-- C2: `reencode` returns `false` and leaves `encoding`, `content` and the
observable `text` unchanged when the decoded text is empty or when encoding
raises `UnicodeEncodeError`; otherwise it stores the target encoding and the
newly encoded bytes and returns `true`.  (Both failure modes are handled,
never raised.) -/
theorem C2_reencode (ext : Ext) (s : Subtitle) (encoding : String) :
    ((s.text_get ext).2 = "" ∨ ext.encode encoding ((s.text_get ext).2) = none →
      (s.reencode ext encoding).2 = false ∧
      (s.reencode ext encoding).1.encoding = s.encoding ∧
      (s.reencode ext encoding).1._content = s._content ∧
      ((s.reencode ext encoding).1.text_get ext).2 = (s.text_get ext).2) ∧
    (∀ bs, (s.text_get ext).2 ≠ "" →
      ext.encode encoding ((s.text_get ext).2) = some bs →
      (s.reencode ext encoding).2 = true ∧
      (s.reencode ext encoding).1.encoding = some encoding ∧
      (s.reencode ext encoding).1._content = some bs) := by
  by_cases ht : (s.text_get ext).2 = ""
  · refine ⟨fun _ => ?_, fun bs hne _ => absurd ht hne⟩
    rw [Subtitle.reencode]
    simp [ht, text_get_encoding, text_get_content, text_get_idem]
  · cases he : ext.encode encoding ((s.text_get ext).2) with
    | none =>
      refine ⟨fun _ => ?_, fun bs _ hbs => by cases hbs⟩
      rw [Subtitle.reencode]
      simp [ht, he, text_get_encoding, text_get_content, text_get_idem]
    | some bs0 =>
      refine ⟨fun h => ?_, fun bs _ hbs => ?_⟩
      · rcases h with h | h
        · exact absurd h ht
        · cases h
      · injection hbs with hbb
        subst hbb
        rw [Subtitle.reencode]
        simp [ht, he]

/-- C2 witness: empty text fails and changes nothing, an encoding error
fails and changes nothing, a representable text succeeds and replaces
encoding and content. -/
theorem C2_reencode_witness :
    ((movieSub.reencode extEx "utf-8").2 = false ∧
      (movieSub.reencode extEx "utf-8").1._content = none) ∧
    ((subDecoded.reencode extEx "latin-1").2 = false ∧
      (subDecoded.reencode extEx "latin-1").1.encoding = none) ∧
    ((subDecoded.reencode extEx "utf-8").2 = true ∧
      (subDecoded.reencode extEx "utf-8").1._content = some [0x68, 0x69]) := by
  have h1 := (C2_reencode extEx movieSub "utf-8").1 (Or.inl (by decide))
  have h2 := (C2_reencode extEx subDecoded "latin-1").1 (Or.inr (by decide))
  have h3 := (C2_reencode extEx subDecoded "utf-8").2 [0x68, 0x69]
    (by decide) (by decide)
  exact ⟨⟨h1.1, h1.2.2.1.trans rfl⟩, ⟨h2.1, h2.2.1.trans rfl⟩, h3.1, h3.2.2⟩

/-- After any `is_valid` call the validity cache holds the returned boolean. -/
theorem is_valid_caches (ext : Ext) (s : Subtitle) (a : Bool) :
    ((s.is_valid ext a).1)._is_valid = some ((s.is_valid ext a).2) := by
  cases h : s._is_valid with
  | none => simp [Subtitle.is_valid, h]
  | some b => simp [Subtitle.is_valid, h]

/-- C10: once `is_valid` has run (content untouched since), every further
`is_valid` call returns the cached boolean and leaves the whole state — in
particular the cached text — unchanged, whatever `auto_fix_srt` is. -/
theorem C10_is_valid_cached (ext : Ext) (s : Subtitle) (a1 a2 : Bool) :
    ((s.is_valid ext a1).1).is_valid ext a2 =
      ((s.is_valid ext a1).1, (s.is_valid ext a1).2) := by
  conv_lhs => rw [Subtitle.is_valid]
  rw [is_valid_caches]

/-- Applying `parse_srt` to an already-decoded state composes the cached
text and leaves the state unchanged. -/
theorem parse_srt_decoded (ext : Ext) (s : Subtitle) (h : s._is_decoded = true) :
    s.parse_srt ext = (s, ext.srtCompose s._text) := by
  rw [Subtitle.parse_srt, Subtitle.text_get, h]
  simp

/-- The format `_check_is_valid` validates against: the preset
`subtitle_format` if any, otherwise the detected format (with a falsy
detection counting as no format). -/
def effectiveFormat (ext : Ext) (s : Subtitle) (text : String) : Option String :=
  match s.subtitle_format with
  | some f => some f
  | none =>
    match get_subtitle_format ext text none s.fps with
    | none => none
    | some f => if f = "" then none else some f

/-- Characterization of `_check_is_valid`: the returned boolean as a
function of the text, the effective format and the round trip; and the
auto-fix effect on the cached text. -/
theorem check_is_valid_spec (ext : Ext) (s : Subtitle) (a : Bool) :
    ((s._check_is_valid ext a).2 =
      (if (s.text_get ext).2 = "" then false
       else
         match effectiveFormat ext s ((s.text_get ext).2) with
         | none => false
         | some f =>
           if f = "srt" then (ext.srtCompose ((s.text_get ext).2)).isSome
           else true)) ∧
    (∀ parsed, a = true →
      effectiveFormat ext s ((s.text_get ext).2) = some "srt" →
      ext.srtCompose ((s.text_get ext).2) = some parsed →
      (s.text_get ext).2 ≠ "" →
      ((s._check_is_valid ext a).1)._text = parsed) := by
  by_cases ht : (s.text_get ext).2 = ""
  · refine ⟨?_, fun parsed _ _ _ hne => absurd ht hne⟩
    rw [Subtitle._check_is_valid]
    simp [ht]
  · have hfps : ((s.text_get ext).1).fps = s.fps := text_get_fps ext s
    have hfmt0 : ((s.text_get ext).1).subtitle_format = s.subtitle_format :=
      text_get_format ext s
    cases hf : s.subtitle_format with
    | some f =>
      have heff : effectiveFormat ext s ((s.text_get ext).2) = some f := by
        simp [effectiveFormat, hf]
      by_cases hsrt : f = "srt"
      · subst hsrt
        cases hc : ext.srtCompose ((s.text_get ext).2) with
        | none =>
          have hck : s._check_is_valid ext a = ((s.text_get ext).1, false) := by
            rw [Subtitle._check_is_valid]
            simp [ht, hfmt0, hf, parse_srt_after_text_get, hc]
          refine ⟨?_, fun parsed _ _ hcomp _ => by cases hcomp⟩
          rw [hck]; simp [ht, heff, hc]
        | some parsed0 =>
          have hck : s._check_is_valid ext a =
              (if a then { (s.text_get ext).1 with _text := parsed0 }
               else (s.text_get ext).1, true) := by
            rw [Subtitle._check_is_valid]
            simp [ht, hfmt0, hf, parse_srt_after_text_get, hc]
          refine ⟨?_, fun parsed ha _ hcomp _ => ?_⟩
          · rw [hck]; simp [ht, heff, hc]
          · injection hcomp with hpp
            subst hpp
            rw [hck, ha]
            simp
      · have hck : s._check_is_valid ext a = ((s.text_get ext).1, true) := by
          rw [Subtitle._check_is_valid]
          simp [ht, hfmt0, hf, hsrt]
        refine ⟨?_, fun parsed _ hsome _ _ => ?_⟩
        · rw [hck]; simp [ht, heff, hsrt]
        · rw [heff] at hsome
          injection hsome with hss
          exact absurd hss hsrt
    | none =>
      cases hg : get_subtitle_format ext ((s.text_get ext).2) none
          ((s.text_get ext).1.fps) with
      | none =>
        have hgs : get_subtitle_format ext ((s.text_get ext).2) none s.fps
            = none := by rw [← hfps]; exact hg
        have heff : effectiveFormat ext s ((s.text_get ext).2) = none := by
          simp [effectiveFormat, hf, hgs]
        have hck : s._check_is_valid ext a = ((s.text_get ext).1, false) := by
          rw [Subtitle._check_is_valid]
          simp [ht, hfmt0, hf, hg]
        refine ⟨?_, fun parsed _ hsome _ _ => by rw [heff] at hsome; cases hsome⟩
        rw [hck]; simp [ht, heff]
      | some g =>
        have hgs : get_subtitle_format ext ((s.text_get ext).2) none s.fps
            = some g := by rw [← hfps]; exact hg
        by_cases hge : g = ""
        · subst hge
          have heff : effectiveFormat ext s ((s.text_get ext).2) = none := by
            simp [effectiveFormat, hf, hgs]
          have hck : s._check_is_valid ext a = ((s.text_get ext).1, false) := by
            rw [Subtitle._check_is_valid]
            simp [ht, hfmt0, hf, hg]
          refine ⟨?_, fun parsed _ hsome _ _ => by rw [heff] at hsome; cases hsome⟩
          rw [hck]; simp [ht, heff]
        · have heff : effectiveFormat ext s ((s.text_get ext).2) = some g := by
            simp [effectiveFormat, hf, hgs, hge]
          have hs2dec :
              ({ (s.text_get ext).1 with subtitle_format := some g } :
                Subtitle)._is_decoded = true :=
            text_get_decoded ext s
          have hparse := parse_srt_decoded ext
            { (s.text_get ext).1 with subtitle_format := some g } hs2dec
          have hs2text :
              ({ (s.text_get ext).1 with subtitle_format := some g } :
                Subtitle)._text = (s.text_get ext).2 :=
            text_get_text ext s
          rw [hs2text] at hparse
          by_cases hsrt : g = "srt"
          · subst hsrt
            cases hc : ext.srtCompose ((s.text_get ext).2) with
            | none =>
              have hck : s._check_is_valid ext a =
                  ({ (s.text_get ext).1 with subtitle_format := some "srt" },
                    false) := by
                rw [Subtitle._check_is_valid]
                simp [ht, hfmt0, hf, hg, hparse, hc]
              refine ⟨?_, fun parsed _ _ hcomp _ => by cases hcomp⟩
              rw [hck]; simp [ht, heff, hc]
            | some parsed0 =>
              have hck : s._check_is_valid ext a =
                  (if a then
                    { (s.text_get ext).1 with subtitle_format := some "srt",
                                              _text := parsed0 }
                   else
                    { (s.text_get ext).1 with subtitle_format := some "srt" },
                    true) := by
                rw [Subtitle._check_is_valid]
                simp [ht, hfmt0, hf, hg, hparse, hc]
              refine ⟨?_, fun parsed ha _ hcomp _ => ?_⟩
              · rw [hck]; simp [ht, heff, hc]
              · injection hcomp with hpp
                subst hpp
                rw [hck, ha]
                simp
          · have hck : s._check_is_valid ext a =
                ({ (s.text_get ext).1 with subtitle_format := some g }, true) := by
              rw [Subtitle._check_is_valid]
              simp [ht, hfmt0, hf, hg, hge, hsrt]
            refine ⟨?_, fun parsed _ hsome _ _ => ?_⟩
            · rw [hck]; simp [ht, heff, hsrt]
            · rw [heff] at hsome
              injection hsome with hss
              exact absurd hss hsrt

/-- C4: on the first validity check, `is_valid` returns `false` when the
decoded text is empty or when no (preset or detected) format classifies
the text; for the `srt` format it returns `true` exactly when the
parse-then-compose round trip succeeds, replacing the cached text with the
recomposed form when `auto_fix_srt` is set; any other recognized format
yields `true`. -/
theorem C4_is_valid_first (ext : Ext) (s : Subtitle) (a : Bool)
    (h : s._is_valid = none) :
    ((s.is_valid ext a).2 =
      (if (s.text_get ext).2 = "" then false
       else
         match effectiveFormat ext s ((s.text_get ext).2) with
         | none => false
         | some f =>
           if f = "srt" then (ext.srtCompose ((s.text_get ext).2)).isSome
           else true)) ∧
    (∀ parsed, a = true →
      effectiveFormat ext s ((s.text_get ext).2) = some "srt" →
      ext.srtCompose ((s.text_get ext).2) = some parsed →
      (s.text_get ext).2 ≠ "" →
      ((s.is_valid ext a).1)._text = parsed) := by
  have hiv : s.is_valid ext a =
      ({ (s._check_is_valid ext a).1 with
          _is_valid := some ((s._check_is_valid ext a).2) },
        (s._check_is_valid ext a).2) := by
    rw [Subtitle.is_valid, h]
  have hspec := check_is_valid_spec ext s a
  constructor
  · rw [hiv]
    exact hspec.1
  · intro parsed ha hfmt hcomp hne
    rw [hiv]
    exact hspec.2 parsed ha hfmt hcomp hne

/-- C4 witness: a decoded `srt` subtitle with text `"hi"` is valid and its
text is auto-fixed to the recomposed `"hi\n"`; the same state with empty
text is invalid. -/
theorem C4_is_valid_first_witness :
    (subDecoded.is_valid extEx true).2 = true ∧
    ((subDecoded.is_valid extEx true).1)._text = "hi\n" ∧
    (({ subDecoded with _text := "" }).is_valid extEx true).2 = false := by
  have h1 := C4_is_valid_first extEx subDecoded true rfl
  have h2 := C4_is_valid_first extEx { subDecoded with _text := "" } true rfl
  exact ⟨h1.1.trans (by decide),
    h1.2 "hi\n" rfl (by decide) (by decide) (by decide),
    h2.1.trans (by decide)⟩

/-- A subtitle state with provider `prov`, id `42` and content `b"h"`. -/
def subA : Subtitle :=
  { movieSub with provider_name := "prov", subtitle_id := "42"
                  _content := some [0x68] }

/-- Same provider and id as `subA`, different content `b"i"`. -/
def subB : Subtitle :=
  { movieSub with provider_name := "prov", subtitle_id := "42"
                  _content := some [0x69] }

/-- Two distinct instances holding those states. -/
def objA : PyObject := ⟨0, subA⟩

/-- The second instance, at a different address. -/
def objB : PyObject := ⟨1, subB⟩

/-- C3 counterexample: two instances constructed with identical
`provider_name` and `subtitle_id` (and differing content) are NOT equal —
the class defines `__hash__` but no `__eq__`, so `==` is Python's default
identity comparison — refuting the equality half of the claim. -/
theorem C3_eq_counterexample :
    objA.val.provider_name = objB.val.provider_name ∧
    objA.val.subtitle_id = objB.val.subtitle_id ∧
    pyEq objA objB = false := by
  decide

/-- C3 amended: instances with identical `provider_name` and `subtitle_id`
hash identically (for any string hash) regardless of content, since the
hashed key is `provider_name + "-" + id`; equality is identity-based, so
distinct instances — in particular any two with differing `subtitle_id` —
are never equal. -/
theorem C3_hash_identity (pyhash : String → Int) (a b : PyObject) :
    (a.val.provider_name = b.val.provider_name →
      a.val.subtitle_id = b.val.subtitle_id →
      a.val.hashKey = b.val.hashKey ∧
      pyhash a.val.hashKey = pyhash b.val.hashKey) ∧
    (a.addr ≠ b.addr → pyEq a b = false) := by
  refine ⟨fun hp hid => ?_, fun hne => ?_⟩
  · have hk : a.val.hashKey = b.val.hashKey := by
      rw [Subtitle.hashKey, Subtitle.hashKey, Subtitle.id, Subtitle.id, hp, hid]
    exact ⟨hk, by rw [hk]⟩
  · simp [pyEq, hne]

/-- C3 amended witness: the two concrete instances hash identically under a
concrete hash but are not equal. -/
theorem C3_hash_identity_witness :
    objA.val.hashKey = objB.val.hashKey ∧
    ((fun t => (t.length : Int)) objA.val.hashKey =
      (fun t => (t.length : Int)) objB.val.hashKey) ∧
    pyEq objA objB = false :=
  ⟨((C3_hash_identity (fun t => (t.length : Int)) objA objB).1 rfl rfl).1,
   ((C3_hash_identity (fun t => (t.length : Int)) objA objB).1 rfl rfl).2,
   (C3_hash_identity (fun t => (t.length : Int)) objA objB).2 (by decide)⟩

end Subliminal
